import Mathlib

/-!
Verification of the room-coordination and recording-pipeline subsystem of the
Cloud-Podcast-and-Meeting-Platform repository.  Each section embeds one slice
of the JavaScript source as executable Lean definitions (JS strings become
`String`, buffers become `List Nat`, the filesystem becomes explicit
operation traces or path-indexed stores, Mongo documents become structures)
and proves the corresponding specification claims about them.
-/

set_option maxRecDepth 100000

namespace CloudMeet

/-!
## A stable sort model

`Array.prototype.sort` in the V8 engine is a stable sort; the chunk-ordering
code sorts filenames with numeric comparators.  We model it with a stable
insertion sort over an explicit boolean comparator: an element is inserted
after every already-placed element that compares less-or-equal, so elements
that compare equal keep their original relative order, exactly as a stable
sort of a `(a, b) => key(a) - key(b)` comparator behaves.
-/

def insertLe {α : Type} (le : α → α → Bool) (x : α) : List α → List α
  | [] => [x]
  | y :: ys => if le y x then y :: insertLe le x ys else x :: y :: ys

def stableSort {α : Type} (le : α → α → Bool) (l : List α) : List α :=
  l.foldl (fun acc x => insertLe le x acc) []

theorem mem_insertLe {α : Type} (le : α → α → Bool) (x a : α) (l : List α)
    (h : a ∈ insertLe le x l) : a = x ∨ a ∈ l := by
  induction l with
  | nil => simpa [insertLe] using h
  | cons y ys ih =>
    by_cases hc : le y x = true
    · simp only [insertLe, if_pos hc, List.mem_cons] at h
      rcases h with h | h
      · exact Or.inr (by simp [h])
      · rcases ih h with h | h
        · exact Or.inl h
        · exact Or.inr (by simp [h])
    · simp only [insertLe, if_neg hc, List.mem_cons] at h
      rcases h with h | h | h
      · exact Or.inl h
      · exact Or.inr (by simp [h])
      · exact Or.inr (by simp [h])

theorem pairwise_insertLe {α : Type} (le : α → α → Bool)
    (htrans : ∀ a b c, le a b = true → le b c = true → le a c = true)
    (htotal : ∀ a b, le a b = true ∨ le b a = true)
    (x : α) (l : List α) (h : l.Pairwise (fun a b => le a b = true)) :
    (insertLe le x l).Pairwise (fun a b => le a b = true) := by
  induction l with
  | nil => simp [insertLe]
  | cons y ys ih =>
    rcases List.pairwise_cons.mp h with ⟨hy, hys⟩
    by_cases hc : le y x = true
    · simp only [insertLe, if_pos hc]
      refine List.pairwise_cons.mpr ⟨?_, ih hys⟩
      intro a ha
      rcases mem_insertLe le x a ys ha with rfl | ha'
      · exact hc
      · exact hy a ha'
    · simp only [insertLe, if_neg hc]
      have hxy : le x y = true := (htotal x y).resolve_right hc
      refine List.pairwise_cons.mpr ⟨?_, h⟩
      intro a ha
      rcases List.mem_cons.mp ha with rfl | ha'
      · exact hxy
      · exact htrans x y a hxy (hy a ha')

theorem pairwise_foldl_insertLe {α : Type} (le : α → α → Bool)
    (htrans : ∀ a b c, le a b = true → le b c = true → le a c = true)
    (htotal : ∀ a b, le a b = true ∨ le b a = true)
    (l acc : List α) (hacc : acc.Pairwise (fun a b => le a b = true)) :
    (l.foldl (fun acc x => insertLe le x acc) acc).Pairwise
      (fun a b => le a b = true) := by
  induction l generalizing acc with
  | nil => simpa using hacc
  | cons x xs ih =>
    exact ih (insertLe le x acc) (pairwise_insertLe le htrans htotal x acc hacc)

theorem pairwise_stableSort {α : Type} (le : α → α → Bool)
    (htrans : ∀ a b c, le a b = true → le b c = true → le a c = true)
    (htotal : ∀ a b, le a b = true ∨ le b a = true) (l : List α) :
    (stableSort le l).Pairwise (fun a b => le a b = true) :=
  pairwise_foldl_insertLe le htrans htotal l [] (by simp)

/-!
## Chunk filename keys (server and merge-worker merge pipelines)

`getChunkFiles` in `server/src/utils/ffmpegHelper.js` keeps the `.webm`
files of a user directory and sorts them by the comparator

  const matchA = a.match(/chunk_(\d+)/);
  const indexA = matchA ? parseInt(matchA[1], 10) : 0;
  return indexA - indexB;

so the key of a filename is the digit run following the first occurrence of
the substring `chunk_` that is followed by at least one digit, and `0` when
the regular expression does not match.

`getSortedChunks` in `merge-worker/src/utils/ffmpegHelper.js` instead keys a
filename by `Number(a.split(".")[0].split("-")[0])` and compares by the
numeric keys when both parse, falling back to the file modification time
when either is `NaN`:

  const aNum = Number(aKey);
  if (!Number.isNaN(aNum) && !Number.isNaN(bNum)) return aNum - bNum;
  return aM - bM;   // mtime fallback
-/

def digitsToNat (l : List Char) : Nat :=
  l.foldl (fun a c => a * 10 + (c.toNat - 48)) 0

/-- First match of the regular expression `chunk_(\d+)` in a character list:
the parsed digit run, or `none` when there is no match. -/
def chunkMatch : List Char → Option Nat
  | [] => none
  | c :: rest =>
    let here := c :: rest
    if "chunk_".toList.isPrefixOf here then
      let ds := (here.drop 6).takeWhile Char.isDigit
      if ds.isEmpty then chunkMatch rest else some (digitsToNat ds)
    else chunkMatch rest

/-- `matchA ? parseInt(matchA[1], 10) : 0` from `getChunkFiles`. -/
def chunkIndexOf (f : String) : Nat :=
  (chunkMatch f.toList).getD 0

def endsWithWebm (f : String) : Bool :=
  ".webm".toList.isSuffixOf f.toList

/-- The order in which `getChunkFiles` (server pipeline) returns the chunk
filenames of one user directory: keep `.webm` files, stable-sort by the
`chunk_(\d+)` numeric key with `0` for filenames where the pattern does not
match.  This order is the concatenation order of the per-participant merge. -/
def getChunkFilesOrder (files : List String) : List String :=
  stableSort (fun a b => decide (chunkIndexOf a ≤ chunkIndexOf b))
    (files.filter endsWithWebm)

/-- `a.split(".")[0].split("-")[0]` : the characters before the first dot,
then before the first dash. -/
def wmKeyChars (f : String) : List Char :=
  ((f.toList.takeWhile (fun c => c ≠ '.')).takeWhile (fun c => c ≠ '-'))

/-- `Number(key)` restricted to the shapes that occur here: a digit run
parses to its value (the empty string parses to `0`, as in JavaScript), and
anything containing a non-digit is `NaN`, modelled as `none`. -/
def jsNumberOf (l : List Char) : Option Nat :=
  if l.all Char.isDigit then some (digitsToNat l) else none

/-- The comparator of `getSortedChunks` (merge-worker pipeline): numeric
keys when both parse, file-modification-time fallback otherwise. -/
def wmLe (mtime : String → Nat) (a b : String) : Bool :=
  match jsNumberOf (wmKeyChars a), jsNumberOf (wmKeyChars b) with
  | some x, some y => decide (x ≤ y)
  | _, _ => decide (mtime a ≤ mtime b)

/-- The order in which `getSortedChunks` (merge-worker pipeline) returns the
chunk filenames of one user directory. -/
def getSortedChunksOrder (mtime : String → Nat) (files : List String) :
    List String :=
  stableSort (wmLe mtime) (files.filter endsWithWebm)

/-- Modelled from the spec: the sentence "sort by the embedded sequence key
(numeric-prefix sort with fallback to file modification time if the prefix
is non-numeric)" applied to the server pipeline filename shape: compare by
the `chunk_(\d+)` key when both filenames have one, and by file modification
time otherwise. -/
def specFallbackLe (mtime : String → Nat) (a b : String) : Bool :=
  match chunkMatch a.toList, chunkMatch b.toList with
  | some x, some y => decide (x ≤ y)
  | _, _ => decide (mtime a ≤ mtime b)

/-- Modelled from the spec: the chunk order the specification describes for
the server pipeline, with the modification-time fallback. -/
def specFallbackOrder (mtime : String → Nat) (files : List String) :
    List String :=
  stableSort (specFallbackLe mtime) (files.filter endsWithWebm)

/-- A modification-time assignment under which the two `.webm` files of the
counterexample are ordered `a.webm` before `b.webm`. -/
def exampleMtime (f : String) : Nat :=
  if f = "a.webm" then 100 else 200

/-- Claim C1, counterexample.  The claim states that in the merge pipeline a
non-numeric prefix falls back to file-modification-time ordering.  In the
server pipeline (`getChunkFiles`) a filename without a `chunk_<digits>`
pattern is assigned sequence key `0` and the modification time is never
consulted: with the two files `b.webm` (mtime `200`) and `a.webm`
(mtime `100`), the code keeps arrival order `[b.webm, a.webm]` while the
claimed modification-time fallback would produce `[a.webm, b.webm]`. -/
theorem C1_counterexample :
    getChunkFilesOrder ["b.webm", "a.webm"] = ["b.webm", "a.webm"]
    ∧ specFallbackOrder exampleMtime ["b.webm", "a.webm"]
        = ["a.webm", "b.webm"]
    ∧ getChunkFilesOrder ["b.webm", "a.webm"]
        ≠ specFallbackOrder exampleMtime ["b.webm", "a.webm"] := by
  refine ⟨by decide, by decide, by decide⟩

/-- Claim C1 (amended): both merge pipelines concatenate the chunk files of
one participant in ascending order of their numeric sequence key regardless
of arrival order (sequence keys `[2,0,1]` come out as `[0,1,2]`), and the
sort never crashes on a non-numeric prefix; but only the merge-worker
pipeline (`getSortedChunks`) falls back to file-modification time for a
non-numeric prefix, while the server pipeline (`getChunkFiles`) assigns such
a filename the sequence key `0`. -/
theorem C1_merge_ordering (files : List String) (f : String)
    (hf : chunkMatch f.toList = none) (mtime : String → Nat) :
    getChunkFilesOrder ["chunk_2.webm", "chunk_0.webm", "chunk_1.webm"]
      = ["chunk_0.webm", "chunk_1.webm", "chunk_2.webm"]
    ∧ (getChunkFilesOrder files).Pairwise
        (fun a b => chunkIndexOf a ≤ chunkIndexOf b)
    ∧ chunkIndexOf f = 0
    ∧ getSortedChunksOrder mtime ["2-0.webm", "0-0.webm", "1-0.webm"]
        = ["0-0.webm", "1-0.webm", "2-0.webm"] := by
  refine ⟨by decide, ?_, ?_, rfl⟩
  · have h := pairwise_stableSort
      (fun a b => decide (chunkIndexOf a ≤ chunkIndexOf b))
      (fun a b c hab hbc =>
        decide_eq_true (le_trans (of_decide_eq_true hab) (of_decide_eq_true hbc)))
      (fun a b => by
        rcases le_total (chunkIndexOf a) (chunkIndexOf b) with h | h
        · exact Or.inl (decide_eq_true h)
        · exact Or.inr (decide_eq_true h))
      (files.filter endsWithWebm)
    exact h.imp of_decide_eq_true
  · show (chunkMatch f.toList).getD 0 = 0
    rw [hf]
    rfl

/-- Claim C1, witness for the amended theorem at concrete inputs. -/
theorem C1_merge_ordering_witness :
    getChunkFilesOrder ["chunk_2.webm", "chunk_0.webm", "chunk_1.webm"]
      = ["chunk_0.webm", "chunk_1.webm", "chunk_2.webm"]
    ∧ chunkIndexOf "final.webm" = 0 :=
  ⟨(C1_merge_ordering ["chunk_1.webm"] "final.webm" (by decide) (fun _ => 0)).1,
   (C1_merge_ordering ["chunk_1.webm"] "final.webm" (by decide) (fun _ => 0)).2.2.1⟩

/-!
## Merge mutual exclusion (`server/src/controllers/mergeController.js`)

`mergeMeetingRecording` keeps a process-wide `mergeLocks` set of room ids.
The request handler runs synchronously from the `mergeLocks.has` check to
`mergeLocks.add` (no `await` in between), so on the single-threaded event
loop check-and-acquire is atomic; we model one invocation up to the point
where the long-running pipeline is awaited as `mergeBeginStep`, and the
lock release performed on both the success and the failure path as
`mergeFinishStep`.
-/

inductive MergeBegin where
  /-- `400 roomId required` -/
  | badRequest
  /-- `409 Merge already in progress for this room` -/
  | inProgress
  /-- `404 No recordings found for this room` -/
  | notFound
  /-- lock acquired, `processMeetingRecording` invoked -/
  | proceed
deriving Repr, DecidableEq

/-- HTTP status attached to each begin outcome by the controller. -/
def MergeBegin.status : MergeBegin → Nat
  | .badRequest => 400
  | .inProgress => 409
  | .notFound => 404
  | .proceed => 200

def mergeBeginStep (locks : List String) (roomId : String)
    (dirExists : Bool) : MergeBegin × List String :=
  if roomId = "" then (.badRequest, locks)
  else if roomId ∈ locks then (.inProgress, locks)
  else if !dirExists then (.notFound, locks)
  else (.proceed, roomId :: locks)

/-- `mergeLocks.delete(roomId)`, run on success and on failure alike. -/
def mergeFinishStep (locks : List String) (roomId : String) : List String :=
  locks.erase roomId

/-- Claim C2: at most one merge per roomId is in flight.  From a state where
the room is unlocked, the first invocation proceeds and acquires the lock;
a second invocation against the resulting state does not start the pipeline
and fails with the 409 `MergeInProgress` response, leaving the lock state
unchanged, whatever its recordings directory looks like; and when the
in-flight merge completes, its lock release leaves the room unlocked. -/
theorem C2_merge_mutual_exclusion (locks : List String) (roomId : String)
    (hid : roomId ≠ "") (hfree : roomId ∉ locks) :
    (mergeBeginStep locks roomId true).1 = .proceed
    ∧ (∀ dir : Bool,
        (mergeBeginStep (mergeBeginStep locks roomId true).2 roomId dir).1
          = .inProgress
        ∧ (mergeBeginStep (mergeBeginStep locks roomId true).2 roomId dir).1.status
            = 409
        ∧ (mergeBeginStep (mergeBeginStep locks roomId true).2 roomId dir).2
            = (mergeBeginStep locks roomId true).2)
    ∧ roomId ∉ mergeFinishStep (mergeBeginStep locks roomId true).2 roomId := by
  have h1 : mergeBeginStep locks roomId true = (.proceed, roomId :: locks) := by
    simp [mergeBeginStep, hid, hfree]
  refine ⟨by rw [h1], ?_, ?_⟩
  · intro dir
    rw [h1]
    refine ⟨?_, ?_, ?_⟩ <;>
      simp [mergeBeginStep, hid, MergeBegin.status]
  · rw [h1]
    simpa [mergeFinishStep] using hfree

/-- Claim C2, witness at a concrete unlocked state. -/
theorem C2_merge_mutual_exclusion_witness :
    (mergeBeginStep [] "room1" true).1 = .proceed
    ∧ (mergeBeginStep (mergeBeginStep [] "room1" true).2 "room1" true).1
        = .inProgress
    ∧ "room1" ∉ mergeFinishStep (mergeBeginStep [] "room1" true).2 "room1" :=
  ⟨(C2_merge_mutual_exclusion [] "room1" (by decide) (by decide)).1,
   ((C2_merge_mutual_exclusion [] "room1" (by decide) (by decide)).2.1 true).1,
   (C2_merge_mutual_exclusion [] "room1" (by decide) (by decide)).2.2⟩

/-!
## Merge pipeline failure behaviour

`processMeetingRecording` in `server/src/utils/ffmpegHelper.js` runs, in
order: a meeting-directory existence check, a user-directory listing, one
`concatenateUserChunks` per user, `mergeUserVideos`, and only then — on the
success path — the cleanup step that deletes the per-user chunk directories
and the per-user intermediate videos.  Any thrown error propagates out
before the cleanup step runs.  The ffmpeg invocations are external, so each
one is modelled by an outcome oracle in `PipelineEnv`; the pipeline result
carries the list of paths the run has deleted.
-/

structure PipelineEnv where
  dirExists : Bool
  users : List String
  /-- outcome of `concatenateUserChunks` per user: `some msg` = rejection -/
  concatErr : String → Option String
  /-- outcome of `mergeUserVideos`: `some msg` = rejection -/
  mergeErr : Option String

inductive PipeResult where
  | ok (finalPath : String)
  | err (msg : String)
deriving Repr, DecidableEq

def userVideoPath (userId : String) : String := "user-" ++ userId ++ ".mp4"

def processMeetingRecordingRun (env : PipelineEnv) :
    PipeResult × List String :=
  if !env.dirExists then (.err "Meeting directory not found", [])
  else if env.users.isEmpty then (.err "No user recordings found", [])
  else
    match env.users.findSome? env.concatErr with
    | some e => (.err e, [])
    | none =>
      match env.mergeErr with
      | some e => (.err e, [])
      | none =>
        (.ok "final-recording.mp4",
         env.users ++ env.users.map userVideoPath)

structure MergeHttp where
  status : Nat
  errMsg : Option String
deriving Repr, DecidableEq

/-- The whole `mergeMeetingRecording` request handler: lock check, directory
check, lock acquire, pipeline run, lock release on either outcome.  Returns
the response, the final lock state, and the paths deleted by the run. -/
def mergeMeetingRecording (locks : List String) (roomId : String)
    (env : PipelineEnv) : MergeHttp × List String × List String :=
  if roomId = "" then (⟨400, none⟩, locks, [])
  else if roomId ∈ locks then (⟨409, none⟩, locks, [])
  else if !env.dirExists then (⟨404, none⟩, locks, [])
  else
    match processMeetingRecordingRun env with
    | (.ok _, del) => (⟨200, none⟩, (roomId :: locks).erase roomId, del)
    | (.err e, del) => (⟨500, some e⟩, (roomId :: locks).erase roomId, del)

theorem pipeline_err_no_delete (env : PipelineEnv) (e : String)
    (hfail : (processMeetingRecordingRun env).1 = .err e) :
    (processMeetingRecordingRun env).2 = [] := by
  unfold processMeetingRecordingRun at hfail ⊢
  by_cases h1 : env.dirExists
  · by_cases h2 : env.users.isEmpty
    · simp [h1, h2]
    · rcases h3 : env.users.findSome? env.concatErr with _ | e1
      · rcases h4 : env.mergeErr with _ | e2
        · simp [h1, h2, h3, h4] at hfail
        · simp [h1, h2, h3, h4]
      · simp [h1, h2, h3]
  · simp [h1]

/-- Claim C8: a failing merge run releases the per-room lock, surfaces the
failure reason in the 500 response, and deletes nothing — neither raw chunk
directories nor per-participant intermediate artifacts. -/
theorem C8_failure_preserves_state (locks : List String) (roomId : String)
    (env : PipelineEnv) (e : String)
    (hfree : roomId ∉ locks) (hid : roomId ≠ "")
    (hdir : env.dirExists = true)
    (hfail : (processMeetingRecordingRun env).1 = .err e) :
    (mergeMeetingRecording locks roomId env).1 = ⟨500, some e⟩
    ∧ roomId ∉ (mergeMeetingRecording locks roomId env).2.1
    ∧ (mergeMeetingRecording locks roomId env).2.2 = [] := by
  have hdel := pipeline_err_no_delete env e hfail
  have hrun : processMeetingRecordingRun env = (.err e, []) := by
    rcases h : processMeetingRecordingRun env with ⟨r, d⟩
    rw [h] at hfail hdel
    simp at hfail hdel
    rw [hfail, hdel]
  unfold mergeMeetingRecording
  rw [if_neg hid, if_neg hfree, hdir]
  simp [hrun]
  simpa using hfree

/-- Claim C8, witness: a concrete environment whose final merge step fails
with reason `boom`. -/
theorem C8_failure_preserves_state_witness :
    (mergeMeetingRecording [] "room1"
        ⟨true, ["u1", "u2"], fun _ => none, some "boom"⟩).1
      = ⟨500, some "boom"⟩
    ∧ (mergeMeetingRecording [] "room1"
        ⟨true, ["u1", "u2"], fun _ => none, some "boom"⟩).2.2 = [] :=
  ⟨(C8_failure_preserves_state [] "room1"
      ⟨true, ["u1", "u2"], fun _ => none, some "boom"⟩ "boom"
      (by decide) (by decide) rfl (by decide)).1,
   (C8_failure_preserves_state [] "room1"
      ⟨true, ["u1", "u2"], fun _ => none, some "boom"⟩ "boom"
      (by decide) (by decide) rfl (by decide)).2.2⟩

/-!
## Chunk ingest (`server/src/controllers/recordingController.js` and
`server/src/utils/fileHelper.js`)

The upload controller wired to `POST /api/recordings/upload-chunk`
validates the fields, decodes the base64 payload to a buffer, rejects
buffers under 1000 bytes with status 400, and persists accepted buffers via
`saveChunk`, which computes `recordings/<roomId>/<userId>/chunk_<i>.webm`
and calls `fs.promises.writeFile(filepath, buffer)` directly.  The separate
helper `saveChunkToDisk` writes `<path>.tmp` and renames it into place.
Filesystem activity is modelled as a trace of write/rename operations.
-/

inductive FsOp where
  | write (path : String) (data : List Nat)
  | rename (src : String) (dst : String)
deriving Repr, DecidableEq

/-- `uploads/recordings/<roomId>/<userId>/chunk_<i>.webm`, the final chunk
path computed by `saveChunk` via `getUserRecordingDir`. -/
def saveChunkPath (roomId userId : String) (chunkIndex : Nat) : String :=
  "uploads/recordings/" ++ roomId ++ "/" ++ userId ++ "/chunk_"
    ++ toString chunkIndex ++ ".webm"

/-- The filesystem trace of `saveChunk`: one direct `writeFile` at the
final chunk path (overwriting any existing file there). -/
def saveChunkOps (roomId userId : String) (chunkIndex : Nat)
    (buffer : List Nat) : List FsOp :=
  [FsOp.write (saveChunkPath roomId userId chunkIndex) buffer]

/-- The filesystem trace of `saveChunkToDisk`: write `<path>.tmp`, then
rename it onto the final path. -/
def saveChunkToDiskOps (filePath : String) (buffer : List Nat) :
    List FsOp :=
  [FsOp.write (filePath ++ ".tmp") buffer,
   FsOp.rename (filePath ++ ".tmp") filePath]

/-- A trace writes the final path directly when some write operation in it
targets that path; such a write is the point at which a concurrent reader
can observe a partially written file there.  A rename never exposes a
partial file. -/
def writesFinalDirectly (finalPath : String) (ops : List FsOp) : Bool :=
  ops.any fun op =>
    match op with
    | FsOp.write p _ => p = finalPath
    | FsOp.rename _ _ => false

structure UploadRes where
  status : Nat
  message : String
  ops : List FsOp
deriving Repr, DecidableEq

/-- `uploadChunk` from `server/src/controllers/recordingController.js`:
field validation, empty-payload check, the 1000-byte corruption threshold,
then persistence through `saveChunk`.  The decoded buffer stands in for
`Buffer.from(chunkData, "base64")`; a missing or empty `chunkData` is
`none`. -/
def uploadChunk (roomId userId : String) (chunkIndex : Option Nat)
    (chunkData : Option (List Nat)) : UploadRes :=
  if roomId = "" ∨ userId = "" ∨ chunkIndex = none then
    ⟨400, "Missing required fields: roomId, userId, or chunkIndex", []⟩
  else
    match chunkData with
    | none => ⟨400, "No chunk data provided", []⟩
    | some buffer =>
      if buffer.length < 1000 then
        ⟨400, "Chunk data too small - possible corruption", []⟩
      else
        ⟨200, "Chunk uploaded successfully",
         saveChunkOps roomId userId (chunkIndex.getD 0) buffer⟩

/-- Claim C4: a payload that decodes to fewer than the minimum-viable 1000
bytes is rejected with status 400 and the corruption message, and the
request performs no filesystem operation, so no chunk file is persisted
under the room/user namespace. -/
theorem C4_small_chunk_rejected (roomId userId : String)
    (chunkIndex : Option Nat) (buffer : List Nat)
    (hsmall : buffer.length < 1000) :
    (uploadChunk roomId userId chunkIndex (some buffer)).status = 400
    ∧ (uploadChunk roomId userId chunkIndex (some buffer)).ops = [] := by
  by_cases h1 : roomId = "" ∨ userId = "" ∨ chunkIndex = none
  · simp [uploadChunk, h1]
  · simp [uploadChunk, h1, hsmall]

/-- Claim C4, witness: a 50-byte payload is rejected and nothing is
persisted. -/
theorem C4_small_chunk_rejected_witness :
    (uploadChunk "room1" "u1" (some 0) (some (List.replicate 50 0))).status
      = 400
    ∧ (uploadChunk "room1" "u1" (some 0) (some (List.replicate 50 0))).ops
      = [] :=
  C4_small_chunk_rejected "room1" "u1" (some 0) (List.replicate 50 0)
    (by decide)

/-- Claim C5, counterexample.  The claim states that `UploadChunk` persists
every accepted chunk by writing a temporary path and renaming it into
place.  The upload controller wired to the recording routes persists
through `saveChunk`, whose trace is a single direct `writeFile` at the
final chunk path: for the accepted 1000-byte upload below, the trace
contains a write that targets the final path itself, which is exactly the
partially-written-file exposure the claim rules out. -/
theorem C5_counterexample :
    writesFinalDirectly (saveChunkPath "room1" "u1" 0)
      (uploadChunk "room1" "u1" (some 0)
        (some (List.replicate 1000 7))).ops = true
    ∧ (uploadChunk "room1" "u1" (some 0)
        (some (List.replicate 1000 7))).status = 200 := by
  have hu : uploadChunk "room1" "u1" (some 0) (some (List.replicate 1000 7))
      = ⟨200, "Chunk uploaded successfully",
         saveChunkOps "room1" "u1" 0 (List.replicate 1000 7)⟩ := by
    simp [uploadChunk]
  rw [hu]
  exact ⟨by simp [writesFinalDirectly, saveChunkOps], rfl⟩

/-- Claim C5 (amended): the repository has an atomic write helper —
`saveChunkToDisk` writes `<path>.tmp` and renames, so its trace never
writes the final path directly — but the upload controller wired to
`POST /api/recordings/upload-chunk` persists accepted chunks through
`saveChunk`, whose trace is one direct write at the final chunk path with
no temporary file and no rename. -/
theorem C5_not_atomic_amended (filePath : String) (buffer : List Nat)
    (roomId userId : String) (chunkIndex : Nat) (b2 : List Nat)
    (hroom : roomId ≠ "") (huser : userId ≠ "") (hlen : 1000 ≤ b2.length) :
    writesFinalDirectly filePath (saveChunkToDiskOps filePath buffer)
      = false
    ∧ writesFinalDirectly (saveChunkPath roomId userId chunkIndex)
        (saveChunkOps roomId userId chunkIndex b2) = true
    ∧ (uploadChunk roomId userId (some chunkIndex) (some b2)).ops
        = saveChunkOps roomId userId chunkIndex b2 := by
  have htmp : filePath ++ ".tmp" ≠ filePath := by
    intro h
    have hlen' := congrArg String.length h
    rw [String.length_append] at hlen'
    have h4 : ".tmp".length = 4 := rfl
    omega
  refine ⟨?_, ?_, ?_⟩
  · simp [writesFinalDirectly, saveChunkToDiskOps, htmp]
  · simp [writesFinalDirectly, saveChunkOps]
  · simp [uploadChunk, hroom, huser, Nat.not_lt.mpr hlen]

/-- Claim C5, witness for the amended theorem at concrete inputs. -/
theorem C5_not_atomic_amended_witness :
    writesFinalDirectly "uploads/recordings/room1/u1/chunk_0.webm"
      (saveChunkToDiskOps "uploads/recordings/room1/u1/chunk_0.webm"
        (List.replicate 1000 7)) = false
    ∧ (uploadChunk "room1" "u1" (some 0) (some (List.replicate 1000 7))).ops
        = saveChunkOps "room1" "u1" 0 (List.replicate 1000 7) :=
  ⟨(C5_not_atomic_amended "uploads/recordings/room1/u1/chunk_0.webm"
      (List.replicate 1000 7) "room1" "u1" 0 (List.replicate 1000 7)
      (by decide) (by decide) (by simp)).1,
   (C5_not_atomic_amended "uploads/recordings/room1/u1/chunk_0.webm"
      (List.replicate 1000 7) "room1" "u1" 0 (List.replicate 1000 7)
      (by decide) (by decide) (by simp)).2.2⟩

/-!
## Idempotent chunk upload (C7)

`saveChunk` derives the target path deterministically from
`(roomId, userId, chunkIndex)` and overwrites whatever is at that path, so
the persistent effect of an upload is an update of a path-indexed store.
-/

def FsMap : Type := String → Option (List Nat)

def fsWrite (fs : FsMap) (p : String) (b : List Nat) : FsMap :=
  fun q => if q = p then some b else fs q

/-- The effect of one `saveChunk` call on the path-indexed store. -/
def saveChunkFs (fs : FsMap) (roomId userId : String) (chunkIndex : Nat)
    (buffer : List Nat) : FsMap :=
  fsWrite fs (saveChunkPath roomId userId chunkIndex) buffer

/-- Claim C7: chunk upload is idempotent per `(roomId, userId, sequence
key)` — uploading twice with the same key leaves the store exactly as a
single upload of the latest payload would: the one fragment stored at the
key path holds the latest content and no other path is touched. -/
theorem C7_upload_idempotent (fs : FsMap) (roomId userId : String)
    (chunkIndex : Nat) (b1 b2 : List Nat) :
    saveChunkFs (saveChunkFs fs roomId userId chunkIndex b1)
        roomId userId chunkIndex b2
      = saveChunkFs fs roomId userId chunkIndex b2
    ∧ saveChunkFs (saveChunkFs fs roomId userId chunkIndex b1)
        roomId userId chunkIndex b2 (saveChunkPath roomId userId chunkIndex)
      = some b2
    ∧ ∀ q, q ≠ saveChunkPath roomId userId chunkIndex →
        saveChunkFs (saveChunkFs fs roomId userId chunkIndex b1)
          roomId userId chunkIndex b2 q = fs q := by
  refine ⟨funext fun q => ?_, ?_, fun q hq => ?_⟩
  · by_cases h : q = saveChunkPath roomId userId chunkIndex <;>
      simp [saveChunkFs, fsWrite, h]
  · simp [saveChunkFs, fsWrite]
  · simp [saveChunkFs, fsWrite, hq]

/-- Claim C7, witness: a double upload at sequence key 0 over the empty
store equals the single upload of the latest payload, and an unrelated
path is untouched. -/
theorem C7_upload_idempotent_witness :
    saveChunkFs (saveChunkFs (fun _ => none) "room1" "u1" 0 [1])
        "room1" "u1" 0 [2]
      = saveChunkFs (fun _ => none) "room1" "u1" 0 [2]
    ∧ saveChunkFs (saveChunkFs (fun _ => none) "room1" "u1" 0 [1])
        "room1" "u1" 0 [2] (saveChunkPath "room1" "u1" 0) = some [2]
    ∧ saveChunkFs (saveChunkFs (fun _ => none) "room1" "u1" 0 [1])
        "room1" "u1" 0 [2] "unrelated"
      = (fun _ => (none : Option (List Nat))) "unrelated" :=
  ⟨(C7_upload_idempotent (fun _ => none) "room1" "u1" 0 [1] [2]).1,
   (C7_upload_idempotent (fun _ => none) "room1" "u1" 0 [1] [2]).2.1,
   (C7_upload_idempotent (fun _ => none) "room1" "u1" 0 [1] [2]).2.2
     "unrelated" (by decide)⟩

/-!
## Room coordinator (`server.js` socket handlers and
`server/src/controllers/meetingController.js`)

A meeting document holds the host id, the participant subdocuments in the
order they were pushed by `join-room` (each with its `joinedAt` default
timestamp), and the `isActive` flag.  The handlers modelled here are the
`leave-room` handler (which calls `removeParticipantFromMeeting` and then,
when the leaver was host and the pre-leave participant count exceeded one,
`transferHostRole`), the `disconnecting` handler (which ends the meeting
whenever the host vanishes), and the two `endMeeting` HTTP controllers.
-/

structure Participant where
  user : String
  joinedAt : Nat
  role : String
deriving Repr, DecidableEq

structure MeetingM where
  host : String
  participants : List Participant
  isActive : Bool
deriving Repr, DecidableEq

inductive RoomEvent where
  | hostTransferred (newHostId : String)
  | userDisconnected (userId : String)
  | participantsUpdated (users : List String)
  | leftSuccess
  | meetingEnded
deriving Repr, DecidableEq

/-- The comparison `p.user.toString() !== userId.toString()` used both by
the participant-removal filter and by the host-transfer search. -/
def userNe (userId : String) (p : Participant) : Bool :=
  p.user ≠ userId

/-- `removeParticipantFromMeeting`: filter the leaving user out of the
participant array and save. -/
def removeParticipant (m : MeetingM) (userId : String) : MeetingM :=
  { m with participants := m.participants.filter (userNe userId) }

/-- Update the role of the first participant with the given user id, as the
single-object mutation in `transferHostRole` does. -/
def setRoleHost : List Participant → String → List Participant
  | [], _ => []
  | p :: ps, u =>
    if p.user = u then { p with role := "host" } :: ps
    else p :: setRoleHost ps u

/-- `transferHostRole(roomId)`: with a nonempty participant array, promote
the first participant whose user id differs from the current host, or
report `none` when there is no such participant. -/
def transferHostRole (m : MeetingM) : Option String × MeetingM :=
  if m.participants.isEmpty then (none, m)
  else
    match m.participants.find? (userNe m.host) with
    | none => (none, m)
    | some newHost =>
      (some newHost.user,
       { m with host := newHost.user,
                participants := setRoleHost m.participants newHost.user })

/-- The `leave-room` socket handler: compute `isHost` from the pre-leave
document, remove the participant, transfer the host role when the leaver
was host and the pre-leave participant count exceeded one, then emit the
notifications.  Returns the resulting meeting document and the emitted
events in order. -/
def leaveRoom (m : MeetingM) (userId : String) : MeetingM × List RoomEvent :=
  let m1 := removeParticipant m userId
  let step :=
    if m.host = userId ∧ 1 < m.participants.length then
      match transferHostRole m1 with
      | (some newHostId, m2) => ([RoomEvent.hostTransferred newHostId], m2)
      | (none, m2) => ([], m2)
    else ([], m1)
  (step.2,
   step.1 ++
     [RoomEvent.userDisconnected userId,
      RoomEvent.participantsUpdated (step.2.participants.map Participant.user),
      RoomEvent.leftSuccess])

/-- The `disconnecting` socket handler: a vanishing host ends the meeting
(`isActive := false`, participants cleared, `meeting-ended` broadcast) with
no host transfer; a vanishing non-host is removed like a leaver. -/
def disconnecting (m : MeetingM) (userId : String) :
    MeetingM × List RoomEvent :=
  if m.host = userId then
    ({ m with isActive := false, participants := [] },
     [RoomEvent.meetingEnded])
  else
    let m1 := removeParticipant m userId
    (m1,
     [RoomEvent.userDisconnected userId,
      RoomEvent.participantsUpdated (m1.participants.map Participant.user)])

theorem find_eq_head_of_all {α : Type} (p : α → Bool) (l : List α)
    (h : ∀ x ∈ l, p x = true) : l.find? p = l.head? := by
  cases l with
  | nil => rfl
  | cons x xs => simp [List.find?, h x (List.mem_cons_self x xs)]

theorem length_filter_lt_of_mem {α : Type} (p : α → Bool) (l : List α)
    (a : α) (ha : a ∈ l) (hpa : p a = false) :
    (l.filter p).length < l.length := by
  induction l with
  | nil => cases ha
  | cons x xs ih =>
    rcases List.mem_cons.mp ha with rfl | ha'
    · simp only [List.filter, hpa]
      exact Nat.lt_succ_of_le (List.length_filter_le p xs)
    · by_cases hx : p x = true
      · simpa [List.filter, hx] using Nat.succ_lt_succ (ih ha')
      · have hx' : p x = false := by
          cases hpx : p x
          · rfl
          · exact absurd hpx hx
        simp only [List.filter, hx']
        exact Nat.lt_trans (ih ha') (Nat.lt_succ_self _)

/-- A concrete active meeting: host `userA` joined at time 0, `userB`
joined at time 1. -/
def exMeeting : MeetingM :=
  { host := "userA",
    participants :=
      [{ user := "userA", joinedAt := 0, role := "host" },
       { user := "userB", joinedAt := 1, role := "participant" }],
    isActive := true }

/-- Claim C3, counterexample.  The claim states that when the host leaves
or disconnects while at least one other participant remains, one remaining
participant becomes host and the room remains active.  In `exMeeting` the
host `userA` disconnects while `userB` remains, and the `disconnecting`
handler ends the meeting instead: `isActive` becomes `false`, the
participant list is cleared, and the only broadcast is `meeting-ended` — no
`host-transferred` notification is emitted and nobody becomes host. -/
theorem C3_counterexample :
    (disconnecting exMeeting "userA").1.isActive = false
    ∧ (disconnecting exMeeting "userA").1.participants = []
    ∧ (disconnecting exMeeting "userA").2 = [RoomEvent.meetingEnded] := by
  refine ⟨by decide, by decide, by decide⟩

/-- Claim C3 (amended): when the host leaves through the explicit
`leave-room` event while at least one other participant remains, exactly
one remaining participant becomes host — the first remaining entry of the
participant array, which under the join-order/`joinedAt` monotonicity of
the array is the participant with the earliest `joinedAt` — a
`host-transferred` notification with the new host id is emitted, and the
room keeps its activity flag.  When the host *disconnects* at the
transport level, however, the meeting always ends (`isActive := false`,
participants cleared, `meeting-ended` broadcast), whatever the number of
remaining participants, with no host transfer. -/
theorem C3_host_transfer_amended (m : MeetingM)
    (hsorted : m.participants.Pairwise (fun a b => a.joinedAt ≤ b.joinedAt))
    (hhost : m.host ∈ m.participants.map Participant.user)
    (hothers : 1 ≤ (removeParticipant m m.host).participants.length) :
    (∃ h, (removeParticipant m m.host).participants.head? = some h
      ∧ (leaveRoom m m.host).1.host = h.user
      ∧ h ∈ (removeParticipant m m.host).participants
      ∧ (∀ p ∈ (removeParticipant m m.host).participants,
          h.joinedAt ≤ p.joinedAt)
      ∧ RoomEvent.hostTransferred h.user ∈ (leaveRoom m m.host).2
      ∧ (leaveRoom m m.host).1.isActive = m.isActive)
    ∧ (∀ m2 : MeetingM, (disconnecting m2 m2.host).1.isActive = false
        ∧ (disconnecting m2 m2.host).2 = [RoomEvent.meetingEnded]) := by
  constructor
  · obtain ⟨ph, hph, hphu⟩ : ∃ p ∈ m.participants, p.user = m.host := by
      simpa using hhost
    have hflen : (removeParticipant m m.host).participants.length
        < m.participants.length := by
      apply length_filter_lt_of_mem _ _ ph hph
      simp [userNe, hphu]
    have hcond : m.host = m.host ∧ 1 < m.participants.length :=
      ⟨rfl, lt_of_le_of_lt hothers hflen⟩
    rcases hfl : (removeParticipant m m.host).participants with _ | ⟨h, t⟩
    · rw [hfl] at hothers
      simp at hothers
    have hall : ∀ x ∈ (removeParticipant m m.host).participants,
        userNe m.host x = true := by
      intro x hx
      have hx' : x ∈ m.participants.filter (userNe m.host) := hx
      exact (List.mem_filter.mp hx').2
    have hne : (removeParticipant m m.host).participants.isEmpty = false := by
      rw [hfl]
      rfl
    have hfind : (removeParticipant m m.host).participants.find?
        (userNe (removeParticipant m m.host).host) = some h := by
      have hall' : ∀ x ∈ (removeParticipant m m.host).participants,
          userNe (removeParticipant m m.host).host x = true := hall
      rw [find_eq_head_of_all _ _ hall', hfl]
      rfl
    have htr : transferHostRole (removeParticipant m m.host)
        = (some h.user,
           { removeParticipant m m.host with
               host := h.user,
               participants :=
                 setRoleHost (removeParticipant m m.host).participants
                   h.user }) := by
      unfold transferHostRole
      rw [hne, hfind]
      rfl
    have hleave : leaveRoom m m.host
        = ({ removeParticipant m m.host with
               host := h.user,
               participants :=
                 setRoleHost (removeParticipant m m.host).participants
                   h.user },
           [RoomEvent.hostTransferred h.user,
            RoomEvent.userDisconnected m.host,
            RoomEvent.participantsUpdated
              ((setRoleHost (removeParticipant m m.host).participants
                  h.user).map Participant.user),
            RoomEvent.leftSuccess]) := by
      simp only [leaveRoom, true_and]
      rw [if_pos hcond.2, htr]
      rfl
    have hfsorted : (removeParticipant m m.host).participants.Pairwise
        (fun a b => a.joinedAt ≤ b.joinedAt) :=
      List.Pairwise.sublist (List.filter_sublist m.participants) hsorted
    refine ⟨h, ?_, ?_, ?_, ?_, ?_, ?_⟩
    · rfl
    · rw [hleave]
    · exact List.mem_cons_self h t
    · intro p hp
      rw [hfl] at hfsorted
      rcases List.mem_cons.mp hp with rfl | hp'
      · exact le_refl _
      · exact (List.pairwise_cons.mp hfsorted).1 p hp'
    · rw [hleave]
      exact List.mem_cons_self _ _
    · rw [hleave]
      rfl
  · intro m2
    refine ⟨?_, ?_⟩ <;> simp [disconnecting]

/-- Claim C3, witness: the amended theorem applied to `exMeeting` where
host `userA` leaves while `userB` remains. -/
theorem C3_host_transfer_amended_witness :
    (∃ h, (removeParticipant exMeeting exMeeting.host).participants.head?
        = some h
      ∧ (leaveRoom exMeeting exMeeting.host).1.host = h.user
      ∧ RoomEvent.hostTransferred h.user
          ∈ (leaveRoom exMeeting exMeeting.host).2
      ∧ (leaveRoom exMeeting exMeeting.host).1.isActive
          = exMeeting.isActive)
    ∧ (disconnecting exMeeting exMeeting.host).1.isActive = false := by
  have hmain := C3_host_transfer_amended exMeeting (by decide) (by decide)
    (by decide)
  obtain ⟨⟨h, h1, h2, _, _, h5, h6⟩, hdisc⟩ := hmain
  exact ⟨⟨h, h1, h2, h5, h6⟩, (hdisc exMeeting).1⟩

/-!
## EndMeeting controllers (C6)

`meetingController.js` carries two `endMeeting` request handlers.  The
first compares the caller id against the meeting host and answers 403
without touching the document when they differ, and otherwise clears the
meeting.  The second variant (the `endMeeting` defined lower in the file)
performs no caller check at all: it only looks the meeting up by roomId
and unconditionally sets `isActive = false`, leaving the participant array
as it is.
-/

/-- The host-checking `endMeeting` controller, applied to a found meeting
document. -/
def endMeeting (m : MeetingM) (callerId : String) : Nat × MeetingM :=
  if m.host ≠ callerId then (403, m)
  else (200, { m with isActive := false, participants := [] })

/-- The second `endMeeting` controller variant: no caller check, sets only
`isActive := false` and answers 200 for any caller. -/
def endMeetingAlt (m : MeetingM) : Nat × MeetingM :=
  (200, { m with isActive := false })

/-- Claim C6, counterexample.  The claim states that every EndMeeting
request from a non-host caller is rejected with 403 and leaves the state
unchanged.  When the non-host `userB` sends EndMeeting for `exMeeting`
(host `userA`) through the second controller variant, the request is
answered 200, never 403, and the meeting is deactivated. -/
theorem C6_counterexample :
    (endMeetingAlt exMeeting).1 = 200
    ∧ (endMeetingAlt exMeeting).1 ≠ 403
    ∧ (endMeetingAlt exMeeting).2.isActive = false
    ∧ exMeeting.isActive = true := by
  refine ⟨rfl, by decide, rfl, rfl⟩

/-- Claim C6 (amended): the host-checking `endMeeting` controller rejects
every non-host caller with 403 and leaves the meeting document untouched —
`isActive` stays as it was and the participant list is not modified — but
the second `endMeeting` controller variant in the same file performs no
host check and sets `isActive := false` with a 200 answer for any caller. -/
theorem C6_forbidden_amended (m : MeetingM) (callerId : String)
    (hc : callerId ≠ m.host) :
    endMeeting m callerId = (403, m)
    ∧ (endMeeting m callerId).2.isActive = m.isActive
    ∧ (endMeeting m callerId).2.participants = m.participants
    ∧ (endMeetingAlt m).1 = 200
    ∧ (endMeetingAlt m).2.isActive = false
    ∧ (endMeetingAlt m).2.participants = m.participants := by
  have h1 : endMeeting m callerId = (403, m) := by
    unfold endMeeting
    rw [if_pos (Ne.symm hc)]
  refine ⟨h1, by rw [h1], by rw [h1], rfl, rfl, rfl⟩

/-- Claim C6, witness: non-host `userB` against `exMeeting`. -/
theorem C6_forbidden_amended_witness :
    endMeeting exMeeting "userB" = (403, exMeeting)
    ∧ (endMeetingAlt exMeeting).2.isActive = false :=
  ⟨(C6_forbidden_amended exMeeting "userB" (by decide)).1,
   (C6_forbidden_amended exMeeting "userB" (by decide)).2.2.2.2.1⟩

/-!
## Signaling relay (C9)

The repository carries two relay implementations.
`registerWebRTCHandlers` in `server/src/webrtc/webrtcHandler.js` forwards
offers, answers and ICE candidates to the target user's live socket; when
the target lookup fails, its offer and answer handlers emit a
`webrtc:error` message back to the sender, while its ICE-candidate handler
only writes a console line and emits nothing.  The inline handlers
registered directly in `server.js` (`socket.on("webrtc:offer", ...)`,
`socket.on("webrtc:answer", ...)`, `socket.on("webrtc:ice-candidate",
...)`) are plain `if (target) target.emit(...)` bodies with no else branch
at all: each of the three drops the payload silently when the target is
absent.
-/

inductive SigEvent where
  | toTarget (targetUserId : String) (event : String) (fromUserId : String)
  | toSender (event : String) (message : String)
deriving Repr, DecidableEq

def relayOffer (present : String → Bool) (senderId targetUserId : String) :
    List SigEvent :=
  if present targetUserId then
    [SigEvent.toTarget targetUserId "webrtc:offer" senderId]
  else
    [SigEvent.toSender "webrtc:error" "Target user not found"]

def relayAnswer (present : String → Bool) (senderId targetUserId : String) :
    List SigEvent :=
  if present targetUserId then
    [SigEvent.toTarget targetUserId "webrtc:answer" senderId]
  else
    [SigEvent.toSender "webrtc:error" "Target user not found"]

def relayIceCandidate (present : String → Bool)
    (senderId targetUserId : String) : List SigEvent :=
  if present targetUserId then
    [SigEvent.toTarget targetUserId "webrtc:ice-candidate" senderId]
  else
    []

/-- The inline `webrtc:offer` handler of `server.js`: forward when the
target socket exists, otherwise do nothing. -/
def inlineRelayOffer (present : String → Bool)
    (senderId targetUserId : String) : List SigEvent :=
  if present targetUserId then
    [SigEvent.toTarget targetUserId "webrtc:offer" senderId]
  else
    []

/-- The inline `webrtc:answer` handler of `server.js`: forward when the
target socket exists, otherwise do nothing. -/
def inlineRelayAnswer (present : String → Bool)
    (senderId targetUserId : String) : List SigEvent :=
  if present targetUserId then
    [SigEvent.toTarget targetUserId "webrtc:answer" senderId]
  else
    []

/-- The inline `webrtc:ice-candidate` handler of `server.js`: forward when
the target socket exists, otherwise do nothing. -/
def inlineRelayIceCandidate (present : String → Bool)
    (senderId targetUserId : String) : List SigEvent :=
  if present targetUserId then
    [SigEvent.toTarget targetUserId "webrtc:ice-candidate" senderId]
  else
    []

/-- A presence map with no live connection for any user. -/
def noPresence : String → Bool := fun _ => false

/-- Claim C9, counterexample.  The claim states that every relay operation
replies to the sender with a delivery-failure notice when the target has no
live connection.  With no live connection for `userB`, relaying an ICE
candidate from `userA` through `registerWebRTCHandlers` emits nothing at
all, and the inline `server.js` handlers emit nothing for an offer, an
answer or an ICE candidate either — each of these payloads is silently
dropped without signaling the sender. -/
theorem C9_counterexample :
    relayIceCandidate noPresence "userA" "userB" = []
    ∧ inlineRelayOffer noPresence "userA" "userB" = []
    ∧ inlineRelayAnswer noPresence "userA" "userB" = []
    ∧ inlineRelayIceCandidate noPresence "userA" "userB" = [] := by
  refine ⟨rfl, rfl, rfl, rfl⟩

/-- Claim C9 (amended): when the target user has no live connection, only
the offer and answer handlers of the standalone `webrtcHandler.js` relay
reply to the sender with a `webrtc:error` delivery-failure notice; its
ICE-candidate handler, and all three inline relay handlers of `server.js`
(offer, answer and ICE candidate), emit no event to anyone — those
payloads are dropped without signaling the sender. -/
theorem C9_relay_failure_amended (present : String → Bool)
    (senderId targetUserId : String) (habsent : present targetUserId = false) :
    relayOffer present senderId targetUserId
      = [SigEvent.toSender "webrtc:error" "Target user not found"]
    ∧ relayAnswer present senderId targetUserId
      = [SigEvent.toSender "webrtc:error" "Target user not found"]
    ∧ relayIceCandidate present senderId targetUserId = []
    ∧ inlineRelayOffer present senderId targetUserId = []
    ∧ inlineRelayAnswer present senderId targetUserId = []
    ∧ inlineRelayIceCandidate present senderId targetUserId = [] := by
  refine ⟨?_, ?_, ?_, ?_, ?_, ?_⟩ <;>
    simp [relayOffer, relayAnswer, relayIceCandidate, inlineRelayOffer,
      inlineRelayAnswer, inlineRelayIceCandidate, habsent]

/-- Claim C9, witness for the amended theorem on the empty presence map. -/
theorem C9_relay_failure_amended_witness :
    relayOffer noPresence "u1" "u2"
      = [SigEvent.toSender "webrtc:error" "Target user not found"]
    ∧ relayIceCandidate noPresence "u1" "u2" = []
    ∧ inlineRelayOffer noPresence "u1" "u2" = [] :=
  ⟨(C9_relay_failure_amended noPresence "u1" "u2" rfl).1,
   (C9_relay_failure_amended noPresence "u1" "u2" rfl).2.2.1,
   (C9_relay_failure_amended noPresence "u1" "u2" rfl).2.2.2.1⟩

/-!
## Ranged download (C10)

`downloadMeetingRecording` parses a `Range: bytes=<start>-<end?>` header
into a start offset and an optional end offset (`end = fileSize - 1` when
the second part is empty), answers `416` without opening a stream when
`start >= fileSize`, and otherwise streams with status `206`,
`Content-Range: bytes start-end/fileSize` and
`Content-Length: end - start + 1`.
-/

structure RangeRes where
  status : Nat
  rangeStart : Option Nat
  rangeEnd : Option Nat
  rangeSize : Option Nat
  contentLength : Option Int
  streamed : Bool
deriving Repr, DecidableEq

def downloadWithRange (fileSize : Nat) (startPos : Nat)
    (endPart : Option Nat) : RangeRes :=
  if fileSize ≤ startPos then
    ⟨416, none, none, none, none, false⟩
  else
    ⟨206, some startPos, some (endPart.getD (fileSize - 1)), some fileSize,
     some (((endPart.getD (fileSize - 1)) : Int) - (startPos : Int) + 1),
     true⟩

/-- Claim C10: a ranged download whose start offset reaches the artifact
size is answered 416 with no bytes streamed; otherwise it is answered 206
with `Content-Range` covering start through the requested end (or
`size - 1` when no end is given) and `Content-Length` equal to
`end - start + 1`. -/
theorem C10_range_semantics (fileSize startPos : Nat)
    (endPart : Option Nat) :
    (fileSize ≤ startPos →
      downloadWithRange fileSize startPos endPart
        = ⟨416, none, none, none, none, false⟩)
    ∧ (startPos < fileSize →
      downloadWithRange fileSize startPos endPart
        = ⟨206, some startPos, some (endPart.getD (fileSize - 1)),
           some fileSize,
           some (((endPart.getD (fileSize - 1)) : Int)
             - (startPos : Int) + 1), true⟩) := by
  constructor
  · intro hge
    unfold downloadWithRange
    rw [if_pos hge]
  · intro hlt
    unfold downloadWithRange
    rw [if_neg (Nat.not_le.mpr hlt)]

/-- Claim C10, witness: a 100-byte artifact answered 416 at start 150 and
206 with `Content-Range: bytes 10-99/100`, `Content-Length: 90` at start
10 with no explicit end. -/
theorem C10_range_semantics_witness :
    downloadWithRange 100 150 none = ⟨416, none, none, none, none, false⟩
    ∧ downloadWithRange 100 10 none
        = ⟨206, some 10, some 99, some 100, some 90, true⟩ := by
  refine ⟨(C10_range_semantics 100 150 none).1 (by decide), ?_⟩
  have h := (C10_range_semantics 100 10 none).2 (by decide)
  simpa using h

end CloudMeet
